import Mathlib

/-!
Shallow embedding of the FSM runtime (src/src/fsm.c, src/src/fsm.h) from
GeneralEmbeddedCLibraries/fsm, together with theorems settling the frozen
claims about its specification.

Modelling conventions:
* `uint32_t` arithmetic is `Nat` with explicit reduction modulo `2 ^ 32`
  (`wrap32`, `add32`, `sub32`); unsigned C subtraction `a - b` is `sub32`.
* State indices (`uint8_t cur / next / num_of`) are `Nat`; the only values the
  engine ever stores come from `fsm_reset_state` (zero) and the range-checked
  `fsm_goto_state`, so the 8-bit width is never observable in the claims.
* A C callback `pf_state_t` mutating the instance through its pointer becomes a
  function `fsm_t → fsm_t`.  The configuration is immutable and referenced, not
  copied, by the instance, so it is passed as an explicit parameter instead of
  being stored in `fsm_t` (storing functions on `fsm_t` inside `fsm_t` is not
  an inductive type).  Every theorem uses one configuration consistently, which
  matches the C instance always dereferencing the `p_cfg` it was built with.
* `FSM_GET_SYSTICK()` is an external read; each engine function that performs
  such a read receives that read's value as an explicit `Nat` argument
  (`fsm_manager` performs up to two reads per call: one in the enter sequence,
  one in the duration accumulation, hence two tick arguments).
* Callback invocations performed by the engine are recorded in an event trace
  (`List Ev`); an event is emitted exactly when the C code calls through a
  non-NULL function pointer.
* A nullable `p_fsm_t` is `Option fsm_t`; `none` models the NULL pointer.
* `malloc` is modelled by a Boolean success flag plus an arbitrary `fsm_t`
  value `mem` standing for the content of the freshly allocated, uninitialized
  block.
* The `fsm_data_t` union is modelled by its `u32` view only; the byte-aliasing
  views are memory layout the engine never touches, and every claim treats the
  data slot as opaque.
* `FSM_ASSERT` is the fatal-error hook tier; with the hook compiled out the C
  functions fall through to the value-level behaviour modelled here.
* Debug prints (`FSM_DBG_PRINT`) are compiled-out no-ops and are not modelled.
-/

/-- Modulus of `uint32_t` arithmetic, 2 ^ 32. -/
def U32MOD : Nat := 2 ^ 32

/-- Truncation of a natural number to `uint32_t`. -/
def wrap32 (a : Nat) : Nat := a % U32MOD

/-- Addition of `uint32_t` values, `a + b`. -/
def add32 (a b : Nat) : Nat := (a + b) % U32MOD

/-- Subtraction of `uint32_t` values, `a - b` (wraparound-safe unsigned difference). -/
def sub32 (a b : Nat) : Nat := (a + (U32MOD - b % U32MOD)) % U32MOD

/-- Clamp macro from fsm.c line 123 (`FSM_LIMIT_DURATION(cnt)`): clamp at
`0x1FFFFFFF`. -/
def FSM_LIMIT_DURATION (cnt : Nat) : Nat :=
  if cnt ≥ 0x1FFFFFFF then 0x1FFFFFFF else cnt

/-- Model of `fsm_state_t` (fsm.c lines 99-104). -/
structure fsm_state_t where
  is_init : Bool
  cur : Nat
  next : Nat
deriving DecidableEq

/-- Model of `fsm_data_t` (fsm.h lines 58-70), by its `u32` view. -/
structure fsm_data_t where
  u32 : Nat
deriving DecidableEq

/-- Model of `fsm_t` (fsm.c lines 109-118) minus the immutable `p_cfg` reference,
which is passed to the operations explicitly. -/
structure fsm_t where
  duration : Nat
  tick_prev : Nat
  state : fsm_state_t
  data : fsm_data_t
  first_entry : Bool
  is_init : Bool
deriving DecidableEq

/-- Model of `fsm_state_cfg_t` (fsm.h lines 87-93); the diagnostic `name` field is
not modelled.  A `none` callback is a NULL function pointer. -/
structure fsm_state_cfg_t where
  on_entry : Option (fsm_t → fsm_t)
  on_activity : Option (fsm_t → fsm_t)
  on_exit : Option (fsm_t → fsm_t)

/-- Model of `fsm_cfg_t` (fsm.h lines 98-103); the diagnostic `name` field is not
modelled. -/
structure fsm_cfg_t where
  p_states : List fsm_state_cfg_t
  num_of : Nat

/-- Model of `fsm_status_t` (fsm.h lines 48-53). -/
inductive fsm_status_t where
  | eFSM_OK
  | eFSM_ERROR
  | eFSM_ERROR_INIT
deriving DecidableEq

export fsm_status_t (eFSM_OK eFSM_ERROR eFSM_ERROR_INIT)

/-- Engine-side callback invocations, recorded for the ordering claims.  An
event carries the state-table index the engine dispatched through. -/
inductive Ev where
  | exit (i : Nat)
  | entry (i : Nat)
  | activity (i : Nat)
deriving DecidableEq

/-- A state descriptor whose three callbacks are all NULL; the value C would
read past the end of the table is undefined, the invariant claim C10 is what
keeps indices in bounds. -/
def noStateCfg : fsm_state_cfg_t := { on_entry := none, on_activity := none, on_exit := none }

/-- List lookup modelling `p_cfg->p_states[ i ]`. -/
def stateAtL : List fsm_state_cfg_t → Nat → fsm_state_cfg_t
  | [], _ => noStateCfg
  | c :: _, 0 => c
  | _ :: rest, n + 1 => stateAtL rest n

/-- Lookup `p_cfg->p_states[ i ]` on a configuration. -/
def stateAt (cfg : fsm_cfg_t) (i : Nat) : fsm_state_cfg_t :=
  stateAtL cfg.p_states i

/-- Guarded call through an optional callback pointer — run an optional callback and
record the dispatch event when the pointer is non-NULL. -/
def runCb (o : Option (fsm_t → fsm_t)) (s : fsm_t) (e : Ev) : fsm_t × List Ev :=
  match o with
  | some f => (f s, [e])
  | none => (s, [])

/-- Model of `fsm_exit_cur_state` (fsm.c lines 151-157). -/
def fsm_exit_cur_state (cfg : fsm_cfg_t) (s : fsm_t) : fsm_t × List Ev :=
  runCb (stateAt cfg s.state.cur).on_exit s (Ev.exit s.state.cur)

/-- Model of `fsm_enter_next_state` (fsm.c lines 169-178): sample the tick, zero the
duration (the C source writes the literal `0.0f`, which converts to the
`uint32_t` zero), invoke the target's entry callback, and only then assign
`state.cur` from the (post-callback) `state.next`. -/
def fsm_enter_next_state (cfg : fsm_cfg_t) (tick : Nat) (s : fsm_t) : fsm_t × List Ev :=
  let s1 : fsm_t := { s with tick_prev := wrap32 tick, duration := 0 }
  let r := runCb (stateAt cfg s1.state.next).on_entry s1 (Ev.entry s1.state.next)
  ({ r.1 with state := { r.1.state with cur := r.1.state.next } }, r.2)

/-- Model of `fsm_handle_cur_state` (fsm.c lines 191-204): accumulate the unsigned
tick delta into the duration, clamp, store the new tick, then invoke the
current state's activity callback. -/
def fsm_handle_cur_state (cfg : fsm_cfg_t) (tick : Nat) (s : fsm_t) : fsm_t × List Ev :=
  let tick_now : Nat := wrap32 tick
  let d : Nat := FSM_LIMIT_DURATION (add32 s.duration (sub32 tick_now s.tick_prev))
  let s1 : fsm_t := { s with duration := d, tick_prev := tick_now }
  runCb (stateAt cfg s1.state.cur).on_activity s1 (Ev.activity s1.state.cur)

/-- Model of `fsm_manager` (fsm.c lines 214-265).  `tickE` is the systick read the
enter sequence would perform, `tickH` the one the duration accumulation
performs. -/
def fsm_manager (cfg : fsm_cfg_t) (tickE tickH : Nat) (s : fsm_t) : fsm_t × List Ev :=
  if s.state.is_init then
    let s0 : fsm_t := { s with state := { s.state with is_init := false } }
    let r1 := fsm_enter_next_state cfg tickE s0
    let r2 := fsm_handle_cur_state cfg tickH r1.1
    (r2.1, r1.2 ++ r2.2)
  else if s.state.cur ≠ s.state.next then
    let r1 := fsm_exit_cur_state cfg s
    let r2 := fsm_enter_next_state cfg tickE r1.1
    let s3 : fsm_t := { r2.1 with first_entry := true }
    let r3 := fsm_handle_cur_state cfg tickH s3
    (r3.1, r1.2 ++ r2.2 ++ r3.2)
  else
    let s1 : fsm_t := { s with first_entry := false }
    fsm_handle_cur_state cfg tickH s1

/-- Model of `fsm_reset_state` (fsm.c lines 275-284).  Note that the shared `data`
slot is not among the fields written. -/
def fsm_reset_state (s : fsm_t) : fsm_t :=
  { s with
    state := { is_init := true, cur := 0, next := 0 }
    duration := 0
    tick_prev := 0
    is_init := true
    first_entry := false }

/-- Model of `fsm_init` (fsm.c lines 310-346).  Here `alloc_ok` models whether `malloc`
succeeds and `mem` the content of the uninitialized allocation; the returned
option is the value of `*p_fsm_inst` after the call (NULL when nothing valid
was stored there — the `p_fsm_inst == NULL` argument error takes the same
`eFSM_ERROR` path as `p_cfg == NULL` and is not modelled separately). -/
def fsm_init (p_cfg : Option fsm_cfg_t) (alloc_ok : Bool) (mem : fsm_t) :
    fsm_status_t × Option fsm_t :=
  match p_cfg with
  | none => (eFSM_ERROR, none)
  | some cfg =>
    if alloc_ok then
      if cfg.num_of > 0 then
        (eFSM_OK, some (fsm_reset_state mem))
      else
        (eFSM_ERROR_INIT, some mem)
    else
      (eFSM_ERROR_INIT, none)

/-- Model of `fsm_is_init` (fsm.c lines 357-371). -/
def fsm_is_init (inst : Option fsm_t) : fsm_status_t × Option Bool :=
  match inst with
  | some s => (eFSM_OK, some s.is_init)
  | none => (eFSM_ERROR, none)

/-- Model of `fsm_reset` (fsm.c lines 381-395). -/
def fsm_reset (inst : Option fsm_t) : fsm_status_t × Option fsm_t :=
  match inst with
  | some s => (eFSM_OK, some (fsm_reset_state s))
  | none => (eFSM_ERROR, none)

/-- Model of `fsm_hndl` (fsm.c lines 407-429). -/
def fsm_hndl (cfg : fsm_cfg_t) (tickE tickH : Nat) (inst : Option fsm_t) :
    fsm_status_t × Option fsm_t × List Ev :=
  match inst with
  | some s =>
    if s.is_init then
      let r := fsm_manager cfg tickE tickH s
      (eFSM_OK, some r.1, r.2)
    else
      (eFSM_ERROR_INIT, some s, [])
  | none => (eFSM_ERROR, none, [])

/-- Model of `fsm_goto_state` (fsm.c lines 440-458). -/
def fsm_goto_state (cfg : fsm_cfg_t) (inst : Option fsm_t) (state : Nat) :
    fsm_status_t × Option fsm_t :=
  match inst with
  | some s =>
    if state < cfg.num_of then
      (eFSM_OK, some { s with state := { s.state with next := state } })
    else
      (eFSM_ERROR, some s)
  | none => (eFSM_ERROR, none)

/-- Model of `fsm_get_state` (fsm.c lines 468-480). -/
def fsm_get_state (inst : Option fsm_t) : Nat :=
  match inst with
  | some s => s.state.cur
  | none => 0

/-- Model of `fsm_get_duration` (fsm.c lines 490-502). -/
def fsm_get_duration (inst : Option fsm_t) : Nat :=
  match inst with
  | some s => s.duration
  | none => 0

/-- Model of `fsm_reset_duration` (fsm.c lines 512-521); `tick` is the systick read
it performs. -/
def fsm_reset_duration (tick : Nat) (inst : Option fsm_t) : Option fsm_t :=
  match inst with
  | some s => some { s with duration := 0, tick_prev := wrap32 tick }
  | none => none

/-- Model of `fsm_get_data` (fsm.c lines 531-543). -/
def fsm_get_data (inst : Option fsm_t) : fsm_data_t :=
  match inst with
  | some s => s.data
  | none => { u32 := 0 }

/-- Model of `fsm_set_data` (fsm.c lines 554-560). -/
def fsm_set_data (inst : Option fsm_t) (d : fsm_data_t) : Option fsm_t :=
  match inst with
  | some s => some { s with data := d }
  | none => none

/-- Model of `fsm_get_first_entry` (fsm.c lines 570-580). -/
def fsm_get_first_entry (inst : Option fsm_t) : Bool :=
  match inst with
  | some s => s.first_entry
  | none => false

/-!
Harness definitions used by the theorems: benign callbacks, the request and
handler sequences the claims quantify over, and concrete fixtures.
-/

/-- A callback that mutates at most the shared data slot of the instance —
the shape of a state function that only calls `fsm_get_state`,
`fsm_get_duration`, `fsm_get_first_entry`, `fsm_get_data` and `fsm_set_data`
on its instance. -/
def dataWriter (g : fsm_t → fsm_data_t) : fsm_t → fsm_t :=
  fun t => { t with data := g t }

/-- An optional callback is benign: if present, it changes at most the shared
data slot.  Holds vacuously for a NULL callback. -/
def cbKeeps (o : Option (fsm_t → fsm_t)) : Prop :=
  ∀ f, o = some f → ∀ t, f t = { t with data := (f t).data }

theorem cbKeeps_none : cbKeeps none := by
  intro f h
  cases h

theorem cbKeeps_dataWriter (g : fsm_t → fsm_data_t) : cbKeeps (some (dataWriter g)) := by
  intro f h t
  cases h
  rfl

/-- Running a benign optional callback preserves every field except the data
slot. -/
theorem runCb_keeps_fst (o : Option (fsm_t → fsm_t)) (s : fsm_t) (e : Ev)
    (h : cbKeeps o) :
    (runCb o s e).1 = { s with data := (runCb o s e).1.data } := by
  cases o with
  | none => rfl
  | some f => exact h f rfl s

/-- Apply a list of `fsm_goto_state` requests in order (the requests a caller
issues between two `fsm_hndl` calls). -/
def applyRequests (cfg : fsm_cfg_t) : List Nat → Option fsm_t → Option fsm_t
  | [], inst => inst
  | k :: rest, inst => applyRequests cfg rest (fsm_goto_state cfg inst k).2

/-- Last in-range request in a list, defaulting to `d` when none is in
range. -/
def lastValid (cfg : fsm_cfg_t) (d : Nat) : List Nat → Nat
  | [] => d
  | k :: rest => lastValid cfg (if k < cfg.num_of then k else d) rest

/-- A two-state configuration with no callbacks. -/
def cfgB : fsm_cfg_t := { p_states := [noStateCfg, noStateCfg], num_of := 2 }

/-- A one-state configuration with no callbacks. -/
def cfg0 : fsm_cfg_t := { p_states := [noStateCfg], num_of := 1 }

/-- A concrete machine value; also plays the role of the uninitialized
allocation content in constructions. -/
def memA : fsm_t :=
  { duration := 0, tick_prev := 0
    state := { is_init := false, cur := 0, next := 0 }
    data := { u32 := 0 }, first_entry := false, is_init := true }

/-- A concrete instance that was never constructed via `fsm_init`
(`is_init = false`, junk field content). -/
def badInst : fsm_t :=
  { duration := 7, tick_prev := 0
    state := { is_init := false, cur := 3, next := 3 }
    data := { u32 := 5 }, first_entry := true, is_init := false }

/-!
Claim C4 — `fsm_goto_state` range checking and last-write-wins.
-/

theorem applyRequests_eq (cfg : fsm_cfg_t) (ks : List Nat) (s : fsm_t) :
    applyRequests cfg ks (some s) =
      some { s with state := { s.state with next := lastValid cfg s.state.next ks } } := by
  induction ks generalizing s with
  | nil => rfl
  | cons k rest ih =>
    show applyRequests cfg rest (fsm_goto_state cfg (some s) k).2 = _
    by_cases h : k < cfg.num_of
    · have hg : (fsm_goto_state cfg (some s) k).2
          = some { s with state := { s.state with next := k } } := by
        simp [fsm_goto_state, h]
      rw [hg, ih]
      simp [lastValid, h]
    · have hg : (fsm_goto_state cfg (some s) k).2 = some s := by
        simp [fsm_goto_state, h]
      rw [hg, ih]
      simp [lastValid, h]

/-- C4: `fsm_goto_state` sets `state.next` to the target exactly when
`target < num_of` (with a `Nat` target, `0 ≤ target` is automatic), returning
`eFSM_OK`; an out-of-range target yields `eFSM_ERROR` and leaves the machine
— in particular `state.next` — unchanged; and a sequence of requests between
two handler calls leaves exactly the last in-range request's value in
`state.next` (all other fields untouched). -/
theorem C4_goto_last_valid (cfg : fsm_cfg_t) (s : fsm_t) (k : Nat) (ks : List Nat) :
    (k < cfg.num_of →
      fsm_goto_state cfg (some s) k
        = (eFSM_OK, some { s with state := { s.state with next := k } })) ∧
    (¬ k < cfg.num_of →
      fsm_goto_state cfg (some s) k = (eFSM_ERROR, some s)) ∧
    applyRequests cfg ks (some s)
      = some { s with state := { s.state with next := lastValid cfg s.state.next ks } } := by
  refine ⟨?_, ?_, applyRequests_eq cfg ks s⟩
  · intro h
    simp [fsm_goto_state, h]
  · intro h
    simp [fsm_goto_state, h]

/-- Witness for C4 at a concrete machine: target 1 of 2 is accepted, target 5
rejected without touching the machine, and of the requests `[5, 0, 1, 7]`
exactly the last in-range one (1) is pending afterwards. -/
theorem C4_goto_last_valid_witness :
    fsm_goto_state cfgB (some memA) 1
      = (eFSM_OK, some { memA with state := { memA.state with next := 1 } }) ∧
    fsm_goto_state cfgB (some memA) 5 = (eFSM_ERROR, some memA) ∧
    applyRequests cfgB [5, 0, 1, 7] (some memA)
      = some { memA with state := { memA.state with next := 1 } } := by
  refine ⟨(C4_goto_last_valid cfgB memA 1 []).1 (by decide),
          (C4_goto_last_valid cfgB memA 5 []).2.1 (by decide), ?_⟩
  rw [(C4_goto_last_valid cfgB memA 1 [5, 0, 1, 7]).2.2]
  decide

/-!
Claim C6 — what `fsm_reset` restores.  The claim as stated is false: the
shared data slot survives `fsm_reset` (fsm.c lines 275-284 never write
`data`), so a machine whose callbacks or owner wrote the data slot does not
return to "the exact state observable immediately after Construct".
-/

/-- The machine as observable right after a successful construction. -/
def c6post : Option fsm_t := (fsm_init (some cfgB) true memA).2

/-- The same machine after its owner stored data 9 and then called
`fsm_reset`. -/
def c6after : Option fsm_t := (fsm_reset (fsm_set_data c6post { u32 := 9 })).2

/-- Counterexample to C6 as stated: after `fsm_reset`, `fsm_get_data` still
reads 9, while immediately after `Construct` it read 0 — an observable that
`fsm_reset` does not return to its post-construction value. -/
theorem C6_reset_counterexample :
    fsm_get_data c6post = { u32 := 0 } ∧
    fsm_get_data c6after = { u32 := 9 } ∧
    fsm_get_data c6after ≠ fsm_get_data c6post := by
  decide

/-- C6 amended: `fsm_reset` always succeeds on a non-NULL instance and
restores every post-construction field — `state.cur = state.next = 0`,
pending initial entry, zero duration and tick, init guard set, first-entry
flag clear — except the shared data slot, which keeps its current value; it
invokes no callback (the reset path contains no dispatch site and no event)
and reads no tick (it takes no tick input; `tick_prev` is set to the constant
zero).  A successful construction produces exactly `fsm_reset_state` of the
allocation. -/
theorem C6_reset_amended (s : fsm_t) :
    fsm_reset (some s) = (eFSM_OK, some (fsm_reset_state s)) ∧
    (fsm_reset_state s).state.cur = 0 ∧
    (fsm_reset_state s).state.next = 0 ∧
    (fsm_reset_state s).state.is_init = true ∧
    (fsm_reset_state s).duration = 0 ∧
    (fsm_reset_state s).tick_prev = 0 ∧
    (fsm_reset_state s).first_entry = false ∧
    (fsm_reset_state s).is_init = true ∧
    (fsm_reset_state s).data = s.data ∧
    (∀ cfg : fsm_cfg_t, ∀ mem : fsm_t, 0 < cfg.num_of →
      fsm_init (some cfg) true mem = (eFSM_OK, some (fsm_reset_state mem))) := by
  refine ⟨rfl, rfl, rfl, rfl, rfl, rfl, rfl, rfl, rfl, ?_⟩
  intro cfg mem h
  simp [fsm_init, h]

/-- Witness for C6 amended at a concrete machine: the junk instance resets to
a machine that retains its data slot, and a concrete construction is exactly
a reset of the allocation. -/
theorem C6_reset_amended_witness :
    fsm_reset (some badInst) = (eFSM_OK, some (fsm_reset_state badInst)) ∧
    (fsm_reset_state badInst).data = { u32 := 5 } ∧
    fsm_init (some cfgB) true memA = (eFSM_OK, some (fsm_reset_state memA)) := by
  obtain ⟨h1, -, -, -, -, -, -, -, h9, h10⟩ := C6_reset_amended badInst
  refine ⟨h1, ?_, h10 cfgB memA (by decide)⟩
  rw [h9]
  decide

/-!
Claim C8 — accessors on invalid instances.  The claim as stated is false: the
C accessors return plain values, not status results.  On a NULL instance they
return benign defaults (`0`, `false`, zero data) — values indistinguishable
from legitimate reads — and on a non-NULL instance they return the stored
field without ever checking the `is_init` construction guard, so a
not-yet-constructed instance is read exactly like a valid one.
-/

/-- Counterexample to C8 as stated: on the never-constructed instance
(`is_init = false`) every accessor returns the stored junk field as if the
call had succeeded, and on NULL `fsm_get_state` returns 0, the same value a
freshly constructed machine returns — no `NotInitializedError` or
`NullInstanceError` result exists anywhere. -/
theorem C8_accessor_counterexample :
    badInst.is_init = false ∧
    fsm_get_state (some badInst) = 3 ∧
    fsm_get_duration (some badInst) = 7 ∧
    fsm_get_first_entry (some badInst) = true ∧
    fsm_get_data (some badInst) = { u32 := 5 } ∧
    fsm_get_state none = 0 ∧
    fsm_get_state (some (fsm_reset_state memA)) = 0 := by
  decide

/-- C8 amended: each read-only accessor returns a benign default on a NULL
instance (0 for state and duration, `false` for first-entry, zero data) —
signalling only through the assertion hook, which `fsm_get_first_entry` does
not even have — and on any non-NULL instance returns the corresponding field
unconditionally, without consulting the `is_init` construction guard. -/
theorem C8_accessor_amended (s : fsm_t) :
    fsm_get_state none = 0 ∧
    fsm_get_duration none = 0 ∧
    fsm_get_first_entry none = false ∧
    fsm_get_data none = { u32 := 0 } ∧
    fsm_get_state (some s) = s.state.cur ∧
    fsm_get_duration (some s) = s.duration ∧
    fsm_get_first_entry (some s) = s.first_entry ∧
    fsm_get_data (some s) = s.data :=
  ⟨rfl, rfl, rfl, rfl, rfl, rfl, rfl, rfl⟩

/-!
Claim C9 — recoverable failures are reported through the result value and
leave the machine unchanged.
-/

/-- C9: `fsm_hndl` on a non-constructed instance returns `eFSM_ERROR_INIT`,
invokes no callback (empty event trace) and mutates nothing; `fsm_hndl` on
NULL returns `eFSM_ERROR`; `fsm_init` on a NULL configuration returns
`eFSM_ERROR`, on an empty state table returns `eFSM_ERROR_INIT`, and on
allocation failure returns `eFSM_ERROR_INIT` with a NULL instance — every
failure is a plain status result the caller may retry or ignore. -/
theorem C9_error_reporting (cfg : fsm_cfg_t) (tickE tickH : Nat) (s : fsm_t) :
    (s.is_init = false →
      fsm_hndl cfg tickE tickH (some s) = (eFSM_ERROR_INIT, some s, [])) ∧
    fsm_hndl cfg tickE tickH none = (eFSM_ERROR, none, []) ∧
    fsm_init none true s = (eFSM_ERROR, none) ∧
    (∀ c : fsm_cfg_t, c.num_of = 0 → (fsm_init (some c) true s).1 = eFSM_ERROR_INIT) ∧
    fsm_init (some cfg) false s = (eFSM_ERROR_INIT, none) := by
  refine ⟨?_, rfl, rfl, ?_, ?_⟩
  · intro h
    simp [fsm_hndl, h]
  · intro c hc
    simp [fsm_init, hc]
  · simp [fsm_init]

/-- An empty (malformed) configuration. -/
def cfgEmpty : fsm_cfg_t := { p_states := [], num_of := 0 }

/-- Witness for C9 at concrete inputs: handling the never-constructed
instance fails with `eFSM_ERROR_INIT`, runs nothing and changes nothing, and
constructing from the empty state table fails with `eFSM_ERROR_INIT`. -/
theorem C9_error_reporting_witness :
    fsm_hndl cfgB 3 4 (some badInst) = (eFSM_ERROR_INIT, some badInst, []) ∧
    (fsm_init (some cfgEmpty) true memA).1 = eFSM_ERROR_INIT :=
  ⟨(C9_error_reporting cfgB 3 4 badInst).1 rfl,
   (C9_error_reporting cfgB 3 4 badInst).2.2.2.1 cfgEmpty rfl⟩

/-!
Claim C3 — duration accumulation.  The claim as stated is false: the clamp
`FSM_LIMIT_DURATION` is applied to the result of the `uint32_t` addition
`duration += (uint32_t)(tick_now - tick_prev)`, so a single wraparound-sized
tick delta can push the 32-bit sum past `2 ^ 32` and the stored duration
wraps below the ceiling before the clamp ever sees it.
-/

/-- Machine after construction and one handler call at tick 0 (the initial
entry of state 0). -/
def c3m1 : Option fsm_t := (fsm_hndl cfg0 0 0 ((fsm_init (some cfg0) true memA).2)).2.1

/-- Machine after a further handler call at tick `0x1FFFFFFF`: the dwell
duration has accumulated up to exactly the ceiling. -/
def c3m2 : Option fsm_t := (fsm_hndl cfg0 0x1FFFFFFF 0x1FFFFFFF c3m1).2.1

/-- Machine after one more handler call whose tick read is the wrapped value
0 (the host counter advanced by `0xE0000001` and wrapped past `2 ^ 32` —
tolerated wraparound of a non-decreasing tick). -/
def c3m3 : Option fsm_t := (fsm_hndl cfg0 0 0 c3m2).2.1

/-- Counterexample to C3 as stated: with no intervening transition and
non-decreasing (wraparound-tolerated) host ticks 0, `0x1FFFFFFF`,
`0x1FFFFFFF + 0xE0000001 = 2 ^ 32` (read as the wrapped `uint32_t` 0), the
duration saturated at the ceiling and then wrapped to 0 on the next
accumulation — it decreased within a state and did not clamp. -/
theorem C3_duration_wrap_counterexample :
    fsm_get_state c3m2 = 0 ∧
    fsm_get_state c3m3 = 0 ∧
    fsm_get_duration c3m2 = 0x1FFFFFFF ∧
    fsm_get_duration c3m3 = 0 ∧
    fsm_get_duration c3m3 < fsm_get_duration c3m2 := by
  decide

/-!
Characterization lemmas for the engine steps under benign callbacks.
-/

/-- Every event a `runCb` call emits is the dispatch event it was given. -/
theorem runCb_snd (o : Option (fsm_t → fsm_t)) (s : fsm_t) (e : Ev) :
    ∀ x ∈ (runCb o s e).2, x = e := by
  cases o with
  | none => intro x hx; cases hx
  | some f =>
    intro x hx
    simp only [runCb, List.mem_singleton] at hx
    exact hx

/-- Under a benign activity callback, `fsm_handle_cur_state` is exactly the
clamped duration accumulation plus a tick resample (plus some data-slot
write). -/
theorem fsm_handle_cur_state_keeps (cfg : fsm_cfg_t) (tick : Nat) (s : fsm_t)
    (h : cbKeeps (stateAt cfg s.state.cur).on_activity) :
    (fsm_handle_cur_state cfg tick s).1
      = { s with
          duration := FSM_LIMIT_DURATION (add32 s.duration (sub32 (wrap32 tick) s.tick_prev))
          tick_prev := wrap32 tick
          data := (fsm_handle_cur_state cfg tick s).1.data } :=
  runCb_keeps_fst _ _ _ h

/-- Every event `fsm_handle_cur_state` emits is the activity dispatch of the
current state. -/
theorem fsm_handle_trace (cfg : fsm_cfg_t) (tick : Nat) (s : fsm_t) :
    ∀ x ∈ (fsm_handle_cur_state cfg tick s).2, x = Ev.activity s.state.cur :=
  fun x hx => runCb_snd _ _ _ x hx

/-- Under a benign entry callback, `fsm_enter_next_state` zeroes the
duration, samples the tick and moves `state.cur` to `state.next` (plus some
data-slot write). -/
theorem fsm_enter_next_state_keeps (cfg : fsm_cfg_t) (tick : Nat) (s : fsm_t)
    (h : cbKeeps (stateAt cfg s.state.next).on_entry) :
    (fsm_enter_next_state cfg tick s).1
      = { s with
          duration := 0
          tick_prev := wrap32 tick
          state := { s.state with cur := s.state.next }
          data := (fsm_enter_next_state cfg tick s).1.data } := by
  simp only [fsm_enter_next_state]
  rw [runCb_keeps_fst _ _ _ h]

/-- Every event `fsm_enter_next_state` emits is the entry dispatch of the
pending state. -/
theorem fsm_enter_trace (cfg : fsm_cfg_t) (tick : Nat) (s : fsm_t) :
    ∀ x ∈ (fsm_enter_next_state cfg tick s).2, x = Ev.entry s.state.next :=
  fun x hx => runCb_snd _ _ _ x hx

/-- With the entry callback present, `fsm_enter_next_state` emits exactly the
entry dispatch of the pending state. -/
theorem fsm_enter_trace_some (cfg : fsm_cfg_t) (tick : Nat) (s : fsm_t)
    (f : fsm_t → fsm_t) (h : (stateAt cfg s.state.next).on_entry = some f) :
    (fsm_enter_next_state cfg tick s).2 = [Ev.entry s.state.next] := by
  show (runCb (stateAt cfg s.state.next).on_entry
    { s with tick_prev := wrap32 tick, duration := 0 } (Ev.entry s.state.next)).2 = _
  rw [h]
  rfl

/-- Same-state handler cycle (no pending transition, initial entry done):
`fsm_manager` clears the first-entry flag, accumulates the clamped duration,
resamples the tick, touches nothing else but the data slot, and emits only
activity dispatches of the current state. -/
theorem fsm_manager_same (cfg : fsm_cfg_t) (tE tH : Nat) (s : fsm_t)
    (h1 : s.state.is_init = false) (h2 : s.state.cur = s.state.next)
    (h3 : cbKeeps (stateAt cfg s.state.cur).on_activity) :
    (fsm_manager cfg tE tH s).1
      = { s with
          first_entry := false
          duration := FSM_LIMIT_DURATION (add32 s.duration (sub32 (wrap32 tH) s.tick_prev))
          tick_prev := wrap32 tH
          data := (fsm_manager cfg tE tH s).1.data } ∧
    (∀ x ∈ (fsm_manager cfg tE tH s).2, x = Ev.activity s.state.cur) := by
  have hm : fsm_manager cfg tE tH s
      = fsm_handle_cur_state cfg tH { s with first_entry := false } := by
    simp [fsm_manager, h1, h2]
  constructor
  · rw [hm, fsm_handle_cur_state_keeps cfg tH { s with first_entry := false } h3]
  · rw [hm]
    exact fsm_handle_trace cfg tH { s with first_entry := false }

/-!
Claim C3 amended — dwell-time accounting under the no-32-bit-overflow side
condition forced by the counterexample above.
-/

/-- C3 amended: for an initialized machine past its initial cycle with no
pending transition and benign callbacks, one `fsm_hndl` call updates the
dwell duration to the clamp of `duration + delta` (where `delta` is the
unsigned 32-bit tick difference), provided that sum stays below `2 ^ 32`;
consequently the duration never decreases within the state, never exceeds
the ceiling `0x1FFFFFFF`, and is exactly the ceiling whenever the
accumulation would meet or exceed it; the state is unchanged; and the enter
sequence resets the duration to zero. -/
theorem C3_duration_saturation_amended (cfg : fsm_cfg_t) (tE tH : Nat) (s : fsm_t)
    (hii : s.is_init = true) (h1 : s.state.is_init = false)
    (h2 : s.state.cur = s.state.next)
    (h3 : cbKeeps (stateAt cfg s.state.cur).on_activity)
    (h4 : cbKeeps (stateAt cfg s.state.next).on_entry)
    (hd : s.duration ≤ 0x1FFFFFFF)
    (hnw : s.duration + sub32 (wrap32 tH) s.tick_prev < U32MOD) :
    ∃ s2 : fsm_t,
      (fsm_hndl cfg tE tH (some s)).2.1 = some s2 ∧
      fsm_get_duration (some s2)
        = FSM_LIMIT_DURATION (s.duration + sub32 (wrap32 tH) s.tick_prev) ∧
      s.duration ≤ fsm_get_duration (some s2) ∧
      fsm_get_duration (some s2) ≤ 0x1FFFFFFF ∧
      (0x1FFFFFFF ≤ s.duration + sub32 (wrap32 tH) s.tick_prev →
        fsm_get_duration (some s2) = 0x1FFFFFFF) ∧
      fsm_get_state (some s2) = s.state.cur ∧
      (fsm_enter_next_state cfg tE s).1.duration = 0 := by
  have hh : (fsm_hndl cfg tE tH (some s)).2.1 = some (fsm_manager cfg tE tH s).1 := by
    simp [fsm_hndl, hii]
  obtain ⟨hm, -⟩ := fsm_manager_same cfg tE tH s h1 h2 h3
  have hsum : add32 s.duration (sub32 (wrap32 tH) s.tick_prev)
      = s.duration + sub32 (wrap32 tH) s.tick_prev := by
    exact Nat.mod_eq_of_lt hnw
  have hdur : fsm_get_duration (some (fsm_manager cfg tE tH s).1)
      = FSM_LIMIT_DURATION (s.duration + sub32 (wrap32 tH) s.tick_prev) := by
    rw [show fsm_get_duration (some (fsm_manager cfg tE tH s).1)
        = (fsm_manager cfg tE tH s).1.duration from rfl, hm]
    simp [hsum]
  refine ⟨(fsm_manager cfg tE tH s).1, hh, hdur, ?_, ?_, ?_, ?_, ?_⟩
  · rw [hdur]
    by_cases hc : s.duration + sub32 (wrap32 tH) s.tick_prev ≥ 0x1FFFFFFF
    · simpa [FSM_LIMIT_DURATION, hc] using hd
    · simp only [FSM_LIMIT_DURATION, if_neg hc]
      exact Nat.le_add_right _ _
  · rw [hdur]
    by_cases hc : s.duration + sub32 (wrap32 tH) s.tick_prev ≥ 0x1FFFFFFF
    · simp [FSM_LIMIT_DURATION, hc]
    · simp only [FSM_LIMIT_DURATION, if_neg hc]
      exact Nat.le_of_not_le hc
  · intro hc
    rw [hdur]
    simp [FSM_LIMIT_DURATION, hc]
  · rw [show fsm_get_state (some (fsm_manager cfg tE tH s).1)
        = (fsm_manager cfg tE tH s).1.state.cur from rfl, hm]
  · rw [fsm_enter_next_state_keeps cfg tE s h4]

/-- A concrete steady-state machine (in state 0, duration 100, last tick
50). -/
def mSteady : fsm_t :=
  { duration := 100, tick_prev := 50
    state := { is_init := false, cur := 0, next := 0 }
    data := { u32 := 0 }, first_entry := false, is_init := true }

/-- Witness for C3 amended at a concrete machine and tick 60 (delta 10). -/
theorem C3_duration_saturation_amended_witness :
    ∃ s2 : fsm_t,
      (fsm_hndl cfg0 5 60 (some mSteady)).2.1 = some s2 ∧
      fsm_get_duration (some s2)
        = FSM_LIMIT_DURATION (mSteady.duration + sub32 (wrap32 60) mSteady.tick_prev) ∧
      mSteady.duration ≤ fsm_get_duration (some s2) ∧
      fsm_get_duration (some s2) ≤ 0x1FFFFFFF ∧
      (0x1FFFFFFF ≤ mSteady.duration + sub32 (wrap32 60) mSteady.tick_prev →
        fsm_get_duration (some s2) = 0x1FFFFFFF) ∧
      fsm_get_state (some s2) = mSteady.state.cur ∧
      (fsm_enter_next_state cfg0 5 mSteady).1.duration = 0 :=
  C3_duration_saturation_amended cfg0 5 60 mSteady rfl rfl rfl
    cbKeeps_none cbKeeps_none (by decide) (by decide)

/-!
Claim C2 — ordering inside the enter sequence.
-/

/-- C2: whenever the pending state's entry callback is present,
`fsm_enter_next_state` invokes it on an intermediate machine `s1` in which
the tick has already been sampled into `tick_prev` and the dwell duration is
already zero, while `state.cur` still holds the previous state's index — so
`fsm_get_state` called by the entry callback observes the previous state and
`fsm_get_duration` observes zero — and only after the callback returns is
`state.cur` assigned from the (post-callback) `state.next`. -/
theorem C2_enter_sequence (cfg : fsm_cfg_t) (tick : Nat) (s : fsm_t)
    (f : fsm_t → fsm_t)
    (hf : (stateAt cfg s.state.next).on_entry = some f) :
    ∃ s1 : fsm_t,
      fsm_get_state (some s1) = s.state.cur ∧
      fsm_get_duration (some s1) = 0 ∧
      s1.tick_prev = wrap32 tick ∧
      s1.state.next = s.state.next ∧
      s1.state.is_init = s.state.is_init ∧
      s1.data = s.data ∧
      s1.first_entry = s.first_entry ∧
      s1.is_init = s.is_init ∧
      fsm_enter_next_state cfg tick s
        = ({ f s1 with state := { (f s1).state with cur := (f s1).state.next } },
           [Ev.entry s.state.next]) := by
  refine ⟨{ s with tick_prev := wrap32 tick, duration := 0 },
    rfl, rfl, rfl, rfl, rfl, rfl, rfl, rfl, ?_⟩
  simp only [fsm_enter_next_state, runCb, hf]

/-- Recorder callback for the C2 witness: stores what `fsm_get_state` and
`fsm_get_duration` observe at callback time into the data slot. -/
def gW : fsm_t → fsm_data_t :=
  fun t => { u32 := fsm_get_state (some t) + 100 * fsm_get_duration (some t) }

/-- Two-state configuration whose state 1 has the recorder entry callback. -/
def cfgW2 : fsm_cfg_t :=
  { p_states := [noStateCfg,
      { on_entry := some (dataWriter gW), on_activity := none, on_exit := none }]
    num_of := 2 }

/-- A machine in state 0 with transition to 1 pending and nonzero dwell. -/
def mW : fsm_t :=
  { duration := 55, tick_prev := 3
    state := { is_init := false, cur := 0, next := 1 }
    data := { u32 := 77 }, first_entry := false, is_init := true }

/-- Witness for C2 at a concrete machine and tick 7. -/
theorem C2_enter_sequence_witness :
    ∃ s1 : fsm_t,
      fsm_get_state (some s1) = mW.state.cur ∧
      fsm_get_duration (some s1) = 0 ∧
      s1.tick_prev = wrap32 7 ∧
      s1.state.next = mW.state.next ∧
      s1.state.is_init = mW.state.is_init ∧
      s1.data = mW.data ∧
      s1.first_entry = mW.first_entry ∧
      s1.is_init = mW.is_init ∧
      fsm_enter_next_state cfgW2 7 mW
        = ({ dataWriter gW s1 with
             state := { (dataWriter gW s1).state with cur := (dataWriter gW s1).state.next } },
           [Ev.entry mW.state.next]) :=
  C2_enter_sequence cfgW2 7 mW (dataWriter gW) rfl

/-!
Manager characterizations for the initial-entry and transition branches.
-/

/-- Initial handler cycle under benign callbacks: the pending-initial flag is
cleared, the machine enters `state.next` (duration zeroed then accumulated
from `tickE` to `tickH`), and — notably — the first-entry flag is NOT set by
this branch: it keeps whatever value it had. -/
theorem fsm_manager_initial (cfg : fsm_cfg_t) (tE tH : Nat) (s : fsm_t)
    (h1 : s.state.is_init = true)
    (h2 : cbKeeps (stateAt cfg s.state.next).on_entry)
    (h3 : cbKeeps (stateAt cfg s.state.next).on_activity) :
    (fsm_manager cfg tE tH s).1
      = { s with
          state := { is_init := false, cur := s.state.next, next := s.state.next }
          duration := FSM_LIMIT_DURATION (add32 0 (sub32 (wrap32 tH) (wrap32 tE)))
          tick_prev := wrap32 tH
          data := (fsm_manager cfg tE tH s).1.data } := by
  have hb : (fsm_manager cfg tE tH s).1
      = (fsm_handle_cur_state cfg tH
          (fsm_enter_next_state cfg tE
            { s with state := { s.state with is_init := false } }).1).1 := by
    simp [fsm_manager, h1]
  rw [hb,
    fsm_enter_next_state_keeps cfg tE { s with state := { s.state with is_init := false } } h2,
    fsm_handle_cur_state_keeps _ _ _ h3]

/-- Transition handler cycle under benign callbacks: exit, enter, set the
first-entry flag, accumulate; the machine lands in `state.next` with
`first_entry = true`. -/
theorem fsm_manager_transition (cfg : fsm_cfg_t) (tE tH : Nat) (s : fsm_t)
    (h1 : s.state.is_init = false) (h2 : s.state.cur ≠ s.state.next)
    (hx : cbKeeps (stateAt cfg s.state.cur).on_exit)
    (he : cbKeeps (stateAt cfg s.state.next).on_entry)
    (ha : cbKeeps (stateAt cfg s.state.next).on_activity) :
    (fsm_manager cfg tE tH s).1
      = { s with
          state := { s.state with cur := s.state.next }
          first_entry := true
          duration := FSM_LIMIT_DURATION (add32 0 (sub32 (wrap32 tH) (wrap32 tE)))
          tick_prev := wrap32 tH
          data := (fsm_manager cfg tE tH s).1.data } := by
  have hb : (fsm_manager cfg tE tH s).1
      = (fsm_handle_cur_state cfg tH
          { (fsm_enter_next_state cfg tE (fsm_exit_cur_state cfg s).1).1 with
            first_entry := true }).1 := by
    simp [fsm_manager, h1, h2]
  have hX : (fsm_exit_cur_state cfg s).1
      = { s with data := (fsm_exit_cur_state cfg s).1.data } :=
    runCb_keeps_fst _ _ _ hx
  rw [hb, hX,
    fsm_enter_next_state_keeps cfg tE
      { s with data := (fsm_exit_cur_state cfg s).1.data } he,
    fsm_handle_cur_state_keeps _ _ _ ha]

/-!
Claim C5 — the first-entry flag.  The claim as stated is false: the
initial-entry branch of `fsm_manager` (fsm.c lines 216-235) never sets
`first_entry`, so after the machine's very first handler call — which does
run the enter sequence — `fsm_get_first_entry` reads `false`, not `true`.
-/

/-- Marker callback for the C5 counterexample. -/
def gMark : fsm_t → fsm_data_t := fun _ => { u32 := 1 }

/-- One-state configuration whose single state has an entry callback. -/
def cfgE : fsm_cfg_t :=
  { p_states := [{ on_entry := some (dataWriter gMark), on_activity := none, on_exit := none }]
    num_of := 1 }

/-- Result of the very first handler call after construction. -/
def c5r : fsm_status_t × Option fsm_t × List Ev :=
  fsm_hndl cfgE 0 0 ((fsm_init (some cfgE) true memA).2)

/-- Counterexample to C5 as stated: the very first handler call performs the
initial entry — the entry dispatch event is emitted and the entry callback
demonstrably ran (it marked the data slot) — yet `fsm_get_first_entry`
reads `false` afterwards, where the claim requires `true` after any handler
call that entered a state. -/
theorem C5_first_entry_counterexample :
    c5r.2.2 = [Ev.entry 0] ∧
    fsm_get_data c5r.2.1 = { u32 := 1 } ∧
    fsm_get_state c5r.2.1 = 0 ∧
    fsm_get_first_entry c5r.2.1 = false := by
  decide

/-- C5 amended: for an initialized machine (with benign callbacks, and the
first-entry flag clear when the initial cycle is still pending, as
construction and reset guarantee), `fsm_get_first_entry` after a handler
call reads `true` exactly when that call performed a non-initial transition
(`state.cur ≠ state.next`): it reads `false` after the machine's very first
handler call (the initial entry) and `false` after a no-transition call. -/
theorem C5_first_entry_amended (cfg : fsm_cfg_t) (tE tH : Nat) (s : fsm_t)
    (hii : s.is_init = true)
    (hen : cbKeeps (stateAt cfg s.state.next).on_entry)
    (hex : cbKeeps (stateAt cfg s.state.cur).on_exit)
    (hac : ∀ i, cbKeeps (stateAt cfg i).on_activity)
    (hfe : s.state.is_init = true → s.first_entry = false) :
    (s.state.is_init = true →
      fsm_get_first_entry (fsm_hndl cfg tE tH (some s)).2.1 = false) ∧
    (s.state.is_init = false → s.state.cur ≠ s.state.next →
      fsm_get_first_entry (fsm_hndl cfg tE tH (some s)).2.1 = true) ∧
    (s.state.is_init = false → s.state.cur = s.state.next →
      fsm_get_first_entry (fsm_hndl cfg tE tH (some s)).2.1 = false) := by
  have hh : (fsm_hndl cfg tE tH (some s)).2.1 = some (fsm_manager cfg tE tH s).1 := by
    simp [fsm_hndl, hii]
  rw [hh]
  have hget : ∀ m : fsm_t, fsm_get_first_entry (some m) = m.first_entry := fun _ => rfl
  refine ⟨?_, ?_, ?_⟩
  · intro h1
    rw [hget, fsm_manager_initial cfg tE tH s h1 hen (hac _)]
    exact hfe h1
  · intro h1 h2
    rw [hget, fsm_manager_transition cfg tE tH s h1 h2 hex hen (hac _)]
  · intro h1 h2
    rw [hget, (fsm_manager_same cfg tE tH s h1 h2 (hac _)).1]

/-- All states of the callback-free two-state configuration are the empty
descriptor. -/
theorem stateAt_cfgB : ∀ i : Nat, stateAt cfgB i = noStateCfg
  | 0 => rfl
  | 1 => rfl
  | _ + 2 => rfl

/-- Every activity slot of `cfgB` is benign. -/
theorem cfgB_keeps_activity : ∀ i, cbKeeps (stateAt cfgB i).on_activity := by
  intro i
  rw [stateAt_cfgB]
  exact cbKeeps_none

/-- A machine of `cfgB` in state 0 with a transition to state 1 pending. -/
def mTrans : fsm_t :=
  { duration := 20, tick_prev := 8
    state := { is_init := false, cur := 0, next := 1 }
    data := { u32 := 0 }, first_entry := false, is_init := true }

/-- Witness for C5 amended: after a concrete transition handler call the
flag reads `true`, and after the concrete very first handler call of a fresh
machine it reads `false`. -/
theorem C5_first_entry_amended_witness :
    fsm_get_first_entry (fsm_hndl cfgB 9 12 (some mTrans)).2.1 = true ∧
    fsm_get_first_entry
      (fsm_hndl cfgB 0 0 (some (fsm_reset_state memA))).2.1 = false :=
  ⟨(C5_first_entry_amended cfgB 9 12 mTrans rfl cbKeeps_none cbKeeps_none
      cfgB_keeps_activity (fun h => by cases h)).2.1 rfl (by decide),
   (C5_first_entry_amended cfgB 0 0 (fsm_reset_state memA) rfl cbKeeps_none cbKeeps_none
      cfgB_keeps_activity (fun _ => rfl)).1 rfl⟩

/-- With the activity callback present, `fsm_handle_cur_state` emits exactly
the activity dispatch of the current state. -/
theorem fsm_handle_trace_some (cfg : fsm_cfg_t) (tick : Nat) (u : fsm_t)
    (f : fsm_t → fsm_t) (h : (stateAt cfg u.state.cur).on_activity = some f) :
    (fsm_handle_cur_state cfg tick u).2 = [Ev.activity u.state.cur] := by
  show (runCb (stateAt cfg u.state.cur).on_activity
    { u with
      duration := FSM_LIMIT_DURATION (add32 u.duration (sub32 (wrap32 tick) u.tick_prev))
      tick_prev := wrap32 tick } (Ev.activity u.state.cur)).2 = _
  rw [h]
  rfl

/-!
Claim C7 — self-transition is a no-op; the very first cycle always enters.
-/

/-- C7: for an initialized machine past its initial cycle with no pending
transition, requesting the current state is accepted and leaves the machine
完全 unchanged; the following handler call emits no exit and no entry
dispatch (only activity), keeps `state.cur`, and accumulates the dwell
duration exactly as the no-request clamped formula; whereas a machine in its
very first cycle runs the enter sequence — its handler trace starts with the
entry dispatch of the pending state — even though that state equals the
current one. -/
theorem C7_self_transition (cfg : fsm_cfg_t) (tE tH : Nat) (s : fsm_t)
    (g : fsm_t → fsm_data_t)
    (hii : s.is_init = true) (h1 : s.state.is_init = false)
    (h2 : s.state.next = s.state.cur) (h3 : s.state.cur < cfg.num_of)
    (hact : cbKeeps (stateAt cfg s.state.cur).on_activity)
    (hen : (stateAt cfg s.state.next).on_entry = some (dataWriter g)) :
    fsm_goto_state cfg (some s) s.state.cur = (eFSM_OK, some s) ∧
    (∀ x ∈ (fsm_hndl cfg tE tH (some s)).2.2, x = Ev.activity s.state.cur) ∧
    fsm_get_state (fsm_hndl cfg tE tH (some s)).2.1 = s.state.cur ∧
    fsm_get_duration (fsm_hndl cfg tE tH (some s)).2.1
      = FSM_LIMIT_DURATION (add32 s.duration (sub32 (wrap32 tH) s.tick_prev)) ∧
    (∃ tl, (fsm_hndl cfg tE tH
        (some { s with state := { s.state with is_init := true } })).2.2
      = Ev.entry s.state.next :: tl) := by
  have hst : ({ s.state with next := s.state.cur } : fsm_state_t) = s.state := by
    conv_rhs => rw [show s.state = ⟨s.state.is_init, s.state.cur, s.state.next⟩ from rfl]
    rw [h2]
  have hh1 : (fsm_hndl cfg tE tH (some s)).2.1 = some (fsm_manager cfg tE tH s).1 := by
    simp [fsm_hndl, hii]
  have hh2 : (fsm_hndl cfg tE tH (some s)).2.2 = (fsm_manager cfg tE tH s).2 := by
    simp [fsm_hndl, hii]
  obtain ⟨hm1, hm2⟩ := fsm_manager_same cfg tE tH s h1 h2.symm hact
  refine ⟨?_, ?_, ?_, ?_, ?_⟩
  · simp only [fsm_goto_state, if_pos h3]
    rw [hst]
  · rw [hh2]
    exact hm2
  · rw [hh1, hm1]
    rfl
  · rw [hh1, hm1]
    rfl
  · have hh3 : (fsm_hndl cfg tE tH
        (some { s with state := { s.state with is_init := true } })).2.2
        = (fsm_manager cfg tE tH { s with state := { s.state with is_init := true } }).2 := by
      simp [fsm_hndl, hii]
    have hmt : (fsm_manager cfg tE tH { s with state := { s.state with is_init := true } }).2
        = (fsm_enter_next_state cfg tE { s with state := { s.state with is_init := false } }).2
          ++ (fsm_handle_cur_state cfg tH
              (fsm_enter_next_state cfg tE
                { s with state := { s.state with is_init := false } }).1).2 := rfl
    have he2 : (fsm_enter_next_state cfg tE
        { s with state := { s.state with is_init := false } }).2
        = [Ev.entry s.state.next] :=
      fsm_enter_trace_some cfg tE { s with state := { s.state with is_init := false } }
        (dataWriter g) hen
    exact ⟨_, by rw [hh3, hmt, he2]; rfl⟩

/-- A machine of `cfgE` sitting in its only state with dwell accumulated. -/
def mSelf : fsm_t :=
  { duration := 5, tick_prev := 10
    state := { is_init := false, cur := 0, next := 0 }
    data := { u32 := 0 }, first_entry := false, is_init := true }

/-- Witness for C7 at a concrete machine: the self-request is a no-op, the
handler emits only activity dispatches, accumulates normally, and the
first-cycle variant's trace starts with the entry dispatch. -/
theorem C7_self_transition_witness :
    fsm_goto_state cfgE (some mSelf) mSelf.state.cur = (eFSM_OK, some mSelf) ∧
    (∀ x ∈ (fsm_hndl cfgE 11 25 (some mSelf)).2.2, x = Ev.activity mSelf.state.cur) ∧
    fsm_get_state (fsm_hndl cfgE 11 25 (some mSelf)).2.1 = mSelf.state.cur ∧
    fsm_get_duration (fsm_hndl cfgE 11 25 (some mSelf)).2.1
      = FSM_LIMIT_DURATION (add32 mSelf.duration (sub32 (wrap32 25) mSelf.tick_prev)) ∧
    (∃ tl, (fsm_hndl cfgE 11 25
        (some { mSelf with state := { mSelf.state with is_init := true } })).2.2
      = Ev.entry mSelf.state.next :: tl) :=
  C7_self_transition cfgE 11 25 mSelf gMark rfl rfl rfl (by decide) cbKeeps_none rfl

/-!
Claim C1 — ordering of exit, entry and activity in a transition cycle, and
the one-cycle first-entry window.
-/

/-- C1: for an initialized machine past its initial cycle whose pending
transition differs from the current state and whose relevant callbacks are
present (and benign), a single `fsm_hndl` call emits exactly the old state's
exit dispatch, then the new state's entry dispatch, then the new state's
activity dispatch, in that order within that one call; afterwards
`fsm_get_first_entry` reads `true`, the machine sits in the new state, and
after the next `fsm_hndl` call (no new transition pending) the flag reads
`false` again. -/
theorem C1_transition_order (cfg : fsm_cfg_t) (tE tH : Nat) (s : fsm_t)
    (g1 g2 g3 : fsm_t → fsm_data_t)
    (hii : s.is_init = true) (h1 : s.state.is_init = false)
    (h2 : s.state.cur ≠ s.state.next)
    (hex : (stateAt cfg s.state.cur).on_exit = some (dataWriter g1))
    (hen : (stateAt cfg s.state.next).on_entry = some (dataWriter g2))
    (hac : (stateAt cfg s.state.next).on_activity = some (dataWriter g3)) :
    ∃ s2 : fsm_t,
      fsm_hndl cfg tE tH (some s)
        = (eFSM_OK, some s2,
           [Ev.exit s.state.cur, Ev.entry s.state.next, Ev.activity s.state.next]) ∧
      fsm_get_first_entry (some s2) = true ∧
      s2.state.cur = s.state.next ∧
      (∀ t3 t4 : Nat,
        fsm_get_first_entry (fsm_hndl cfg t3 t4 (some s2)).2.1 = false) := by
  have hexK : cbKeeps (stateAt cfg s.state.cur).on_exit := by
    rw [hex]; exact cbKeeps_dataWriter g1
  have henK : cbKeeps (stateAt cfg s.state.next).on_entry := by
    rw [hen]; exact cbKeeps_dataWriter g2
  have hacK : cbKeeps (stateAt cfg s.state.next).on_activity := by
    rw [hac]; exact cbKeeps_dataWriter g3
  have hTr := fsm_manager_transition cfg tE tH s h1 h2 hexK henK hacK
  have hh1 : fsm_hndl cfg tE tH (some s)
      = (eFSM_OK, some (fsm_manager cfg tE tH s).1, (fsm_manager cfg tE tH s).2) := by
    simp [fsm_hndl, hii]
  have hbt : (fsm_manager cfg tE tH s).2
      = (fsm_exit_cur_state cfg s).2
        ++ (fsm_enter_next_state cfg tE (fsm_exit_cur_state cfg s).1).2
        ++ (fsm_handle_cur_state cfg tH
            { (fsm_enter_next_state cfg tE (fsm_exit_cur_state cfg s).1).1 with
              first_entry := true }).2 := by
    simp [fsm_manager, h1, h2]
  have hX : (fsm_exit_cur_state cfg s).1
      = { s with data := (fsm_exit_cur_state cfg s).1.data } :=
    runCb_keeps_fst _ _ _ hexK
  have t1 : (fsm_exit_cur_state cfg s).2 = [Ev.exit s.state.cur] := by
    show (runCb (stateAt cfg s.state.cur).on_exit s (Ev.exit s.state.cur)).2 = _
    rw [hex]
    rfl
  have t2 : (fsm_enter_next_state cfg tE (fsm_exit_cur_state cfg s).1).2
      = [Ev.entry s.state.next] := by
    rw [hX]
    exact fsm_enter_trace_some cfg tE
      { s with data := (fsm_exit_cur_state cfg s).1.data } (dataWriter g2) hen
  have hEn := fsm_enter_next_state_keeps cfg tE
    { s with data := (fsm_exit_cur_state cfg s).1.data } henK
  have t3 : (fsm_handle_cur_state cfg tH
      { (fsm_enter_next_state cfg tE (fsm_exit_cur_state cfg s).1).1 with
        first_entry := true }).2 = [Ev.activity s.state.next] := by
    rw [hX, hEn]
    exact fsm_handle_trace_some cfg tH _ (dataWriter g3) hac
  refine ⟨(fsm_manager cfg tE tH s).1, ?_, ?_, ?_, ?_⟩
  · rw [hh1, hbt, t1, t2, t3]
    rfl
  · rw [show fsm_get_first_entry (some (fsm_manager cfg tE tH s).1)
        = (fsm_manager cfg tE tH s).1.first_entry from rfl, hTr]
  · rw [hTr]
  · intro t3' t4'
    have hs2i : (fsm_manager cfg tE tH s).1.is_init = true := by
      rw [hTr]; exact hii
    have hh2 : (fsm_hndl cfg t3' t4' (some (fsm_manager cfg tE tH s).1)).2.1
        = some (fsm_manager cfg t3' t4' (fsm_manager cfg tE tH s).1).1 := by
      simp [fsm_hndl, hs2i]
    have h1' : (fsm_manager cfg tE tH s).1.state.is_init = false := by
      rw [hTr]; exact h1
    have h2' : (fsm_manager cfg tE tH s).1.state.cur
        = (fsm_manager cfg tE tH s).1.state.next := by
      rw [hTr]
    have hac' : cbKeeps (stateAt cfg (fsm_manager cfg tE tH s).1.state.cur).on_activity := by
      rw [hTr]; exact hacK
    rw [hh2,
      show fsm_get_first_entry (some (fsm_manager cfg t3' t4' (fsm_manager cfg tE tH s).1).1)
        = (fsm_manager cfg t3' t4' (fsm_manager cfg tE tH s).1).1.first_entry from rfl,
      (fsm_manager_same cfg t3' t4' (fsm_manager cfg tE tH s).1 h1' h2' hac').1]

/-- Two-state configuration with an exit callback on state 0 and entry and
activity callbacks on state 1. -/
def cfgF : fsm_cfg_t :=
  { p_states :=
      [ { on_entry := none, on_activity := none, on_exit := some (dataWriter gMark) },
        { on_entry := some (dataWriter gMark), on_activity := some (dataWriter gMark),
          on_exit := none } ]
    num_of := 2 }

/-- Witness for C1 at a concrete machine with a pending 0-to-1 transition. -/
theorem C1_transition_order_witness :
    ∃ s2 : fsm_t,
      fsm_hndl cfgF 9 12 (some mTrans)
        = (eFSM_OK, some s2,
           [Ev.exit mTrans.state.cur, Ev.entry mTrans.state.next,
            Ev.activity mTrans.state.next]) ∧
      fsm_get_first_entry (some s2) = true ∧
      s2.state.cur = mTrans.state.next ∧
      (∀ t3 t4 : Nat,
        fsm_get_first_entry (fsm_hndl cfgF t3 t4 (some s2)).2.1 = false) :=
  C1_transition_order cfgF 9 12 mTrans gMark gMark gMark rfl rfl (by decide) rfl rfl rfl

/-!
Claim C10 — the state-index invariant `cur < num_of ∧ next < num_of` under
arbitrary public-API usage, with callbacks that themselves only invoke the
public API (other than `fsm_hndl`).
-/

/-- Programs made only of public API calls other than `fsm_hndl` — the shape
of a state callback body that only invokes the public API on its own
instance; accessor reads appear as the branching condition. -/
inductive ApiProg where
  | skipP
  | gotoP (k : Nat)
  | setDataP (d : fsm_data_t)
  | resetP
  | resetDurationP (t : Nat)
  | seqP (a b : ApiProg)
  | branchP (c : fsm_t → Bool) (a b : ApiProg)

/-- Run an API-call program as a callback body on the instance. -/
def ApiProg.run (cfg : fsm_cfg_t) : ApiProg → fsm_t → fsm_t
  | .skipP, s => s
  | .gotoP k, s => ((fsm_goto_state cfg (some s) k).2).getD s
  | .setDataP d, s => (fsm_set_data (some s) d).getD s
  | .resetP, s => ((fsm_reset (some s)).2).getD s
  | .resetDurationP t, s => (fsm_reset_duration t (some s)).getD s
  | .seqP a b, s => ApiProg.run cfg b (ApiProg.run cfg a s)
  | .branchP c a b, s => if c s then ApiProg.run cfg a s else ApiProg.run cfg b s

/-- Both state indices are inside the state table. -/
def StateInv (cfg : fsm_cfg_t) (s : fsm_t) : Prop :=
  s.state.cur < cfg.num_of ∧ s.state.next < cfg.num_of

/-- An optional callback is an API-call program (or absent). -/
def CbApi (cfg : fsm_cfg_t) (o : Option (fsm_t → fsm_t)) : Prop :=
  o = none ∨ ∃ p : ApiProg, o = some (ApiProg.run cfg p)

/-- Every callback of the configuration is an API-call program. -/
def CfgApi (cfg : fsm_cfg_t) : Prop :=
  ∀ sc ∈ cfg.p_states,
    CbApi cfg sc.on_entry ∧ CbApi cfg sc.on_activity ∧ CbApi cfg sc.on_exit

theorem stateAtL_cases (l : List fsm_state_cfg_t) (i : Nat) :
    stateAtL l i = noStateCfg ∨ stateAtL l i ∈ l := by
  induction l generalizing i with
  | nil => exact Or.inl rfl
  | cons c rest ih =>
    cases i with
    | zero => exact Or.inr (List.mem_cons_self c rest)
    | succ n =>
      rcases ih n with h | h
      · exact Or.inl h
      · exact Or.inr (List.mem_cons_of_mem c h)

theorem cfgApi_stateAt (cfg : fsm_cfg_t) (h : CfgApi cfg) (i : Nat) :
    CbApi cfg (stateAt cfg i).on_entry ∧ CbApi cfg (stateAt cfg i).on_activity ∧
    CbApi cfg (stateAt cfg i).on_exit := by
  rcases stateAtL_cases cfg.p_states i with hc | hc
  · rw [show stateAt cfg i = stateAtL cfg.p_states i from rfl, hc]
    exact ⟨Or.inl rfl, Or.inl rfl, Or.inl rfl⟩
  · exact h _ hc

theorem apiProg_run_inv (cfg : fsm_cfg_t) (hn : 0 < cfg.num_of) (p : ApiProg) :
    ∀ s : fsm_t, StateInv cfg s → StateInv cfg (ApiProg.run cfg p s) := by
  induction p with
  | skipP => intro s h; exact h
  | gotoP k =>
    intro s h
    show StateInv cfg (((fsm_goto_state cfg (some s) k).2).getD s)
    by_cases hk : k < cfg.num_of
    · rw [show (fsm_goto_state cfg (some s) k).2
          = some { s with state := { s.state with next := k } } by simp [fsm_goto_state, hk]]
      exact ⟨h.1, hk⟩
    · rw [show (fsm_goto_state cfg (some s) k).2 = some s by simp [fsm_goto_state, hk]]
      exact h
  | setDataP d => intro s h; exact h
  | resetP => intro s h; exact ⟨hn, hn⟩
  | resetDurationP t => intro s h; exact h
  | seqP a b iha ihb => intro s h; exact ihb _ (iha s h)
  | branchP c a b iha ihb =>
    intro s h
    show StateInv cfg (if c s then ApiProg.run cfg a s else ApiProg.run cfg b s)
    by_cases hc : c s
    · rw [if_pos hc]; exact iha s h
    · rw [if_neg hc]; exact ihb s h

theorem cbApi_runCb_inv (cfg : fsm_cfg_t) (hn : 0 < cfg.num_of)
    (o : Option (fsm_t → fsm_t)) (ho : CbApi cfg o) (s : fsm_t) (e : Ev)
    (h : StateInv cfg s) : StateInv cfg (runCb o s e).1 := by
  rcases ho with rfl | ⟨p, rfl⟩
  · exact h
  · exact apiProg_run_inv cfg hn p s h

theorem fsm_exit_inv (cfg : fsm_cfg_t) (hapi : CfgApi cfg) (hn : 0 < cfg.num_of)
    (s : fsm_t) (h : StateInv cfg s) : StateInv cfg (fsm_exit_cur_state cfg s).1 :=
  cbApi_runCb_inv cfg hn _ (cfgApi_stateAt cfg hapi s.state.cur).2.2 s _ h

theorem fsm_enter_inv (cfg : fsm_cfg_t) (hapi : CfgApi cfg) (hn : 0 < cfg.num_of)
    (tick : Nat) (s : fsm_t) (h : StateInv cfg s) :
    StateInv cfg (fsm_enter_next_state cfg tick s).1 := by
  have h2 := cbApi_runCb_inv cfg hn _ (cfgApi_stateAt cfg hapi s.state.next).1
    { s with tick_prev := wrap32 tick, duration := 0 } (Ev.entry s.state.next) h
  exact ⟨h2.2, h2.2⟩

theorem fsm_handle_inv (cfg : fsm_cfg_t) (hapi : CfgApi cfg) (hn : 0 < cfg.num_of)
    (tick : Nat) (s : fsm_t) (h : StateInv cfg s) :
    StateInv cfg (fsm_handle_cur_state cfg tick s).1 :=
  cbApi_runCb_inv cfg hn _ (cfgApi_stateAt cfg hapi s.state.cur).2.1 _ _ h

theorem fsm_manager_inv (cfg : fsm_cfg_t) (hapi : CfgApi cfg) (hn : 0 < cfg.num_of)
    (tE tH : Nat) (s : fsm_t) (h : StateInv cfg s) :
    StateInv cfg (fsm_manager cfg tE tH s).1 := by
  by_cases hi : s.state.is_init
  · have hb : (fsm_manager cfg tE tH s).1
        = (fsm_handle_cur_state cfg tH (fsm_enter_next_state cfg tE
            { s with state := { s.state with is_init := false } }).1).1 := by
      simp [fsm_manager, hi]
    rw [hb]
    exact fsm_handle_inv cfg hapi hn tH _ (fsm_enter_inv cfg hapi hn tE _ h)
  · by_cases hne : s.state.cur = s.state.next
    · have hb : (fsm_manager cfg tE tH s).1
          = (fsm_handle_cur_state cfg tH { s with first_entry := false }).1 := by
        simp [fsm_manager, hi, hne]
      rw [hb]
      exact fsm_handle_inv cfg hapi hn tH _ h
    · have hb : (fsm_manager cfg tE tH s).1
          = (fsm_handle_cur_state cfg tH
              { (fsm_enter_next_state cfg tE (fsm_exit_cur_state cfg s).1).1 with
                first_entry := true }).1 := by
        simp [fsm_manager, hi, hne]
      rw [hb]
      exact fsm_handle_inv cfg hapi hn tH _
        (fsm_enter_inv cfg hapi hn tE _ (fsm_exit_inv cfg hapi hn s h))

/-- One public API call made by the owner of the machine (`fsm_hndl` with
its two tick reads, or any of the mutating calls; the pure accessors do not
change the machine). -/
inductive ApiOp where
  | hndlO (tE tH : Nat)
  | gotoO (k : Nat)
  | resetO
  | setDataO (d : fsm_data_t)
  | resetDurationO (t : Nat)

/-- Effect of one public API call on the (non-NULL, constructed) machine. -/
def ApiOp.apply (cfg : fsm_cfg_t) (s : fsm_t) : ApiOp → fsm_t
  | .hndlO tE tH => ((fsm_hndl cfg tE tH (some s)).2.1).getD s
  | .gotoO k => ((fsm_goto_state cfg (some s) k).2).getD s
  | .resetO => ((fsm_reset (some s)).2).getD s
  | .setDataO d => (fsm_set_data (some s) d).getD s
  | .resetDurationO t => (fsm_reset_duration t (some s)).getD s

/-- Run a sequence of public API calls on the machine. -/
def runOps (cfg : fsm_cfg_t) : List ApiOp → fsm_t → fsm_t
  | [], s => s
  | op :: rest, s => runOps cfg rest (ApiOp.apply cfg s op)

theorem apiOp_inv (cfg : fsm_cfg_t) (hapi : CfgApi cfg) (hn : 0 < cfg.num_of)
    (op : ApiOp) (s : fsm_t) (h : StateInv cfg s) :
    StateInv cfg (ApiOp.apply cfg s op) := by
  cases op with
  | hndlO tE tH =>
    show StateInv cfg (((fsm_hndl cfg tE tH (some s)).2.1).getD s)
    by_cases hi : s.is_init
    · rw [show (fsm_hndl cfg tE tH (some s)).2.1
          = some (fsm_manager cfg tE tH s).1 by simp [fsm_hndl, hi]]
      exact fsm_manager_inv cfg hapi hn tE tH s h
    · rw [show (fsm_hndl cfg tE tH (some s)).2.1 = some s by simp [fsm_hndl, hi]]
      exact h
  | gotoO k =>
    show StateInv cfg (((fsm_goto_state cfg (some s) k).2).getD s)
    by_cases hk : k < cfg.num_of
    · rw [show (fsm_goto_state cfg (some s) k).2
          = some { s with state := { s.state with next := k } } by simp [fsm_goto_state, hk]]
      exact ⟨h.1, hk⟩
    · rw [show (fsm_goto_state cfg (some s) k).2 = some s by simp [fsm_goto_state, hk]]
      exact h
  | resetO => exact ⟨hn, hn⟩
  | setDataO d => exact h
  | resetDurationO t => exact h

theorem runOps_inv (cfg : fsm_cfg_t) (hapi : CfgApi cfg) (hn : 0 < cfg.num_of)
    (ops : List ApiOp) : ∀ s, StateInv cfg s → StateInv cfg (runOps cfg ops s) := by
  induction ops with
  | nil => intro s h; exact h
  | cons op rest ih => intro s h; exact ih _ (apiOp_inv cfg hapi hn op s h)

/-- C10: for a machine successfully constructed from a configuration with at
least one state, whose callbacks only invoke the public API (other than
`fsm_hndl`) on the instance, both `state.cur` and `state.next` stay strictly
below `num_of` after any sequence of public API calls — so every state-table
index the exit, enter and activity dispatches use is in bounds. -/
theorem C10_state_index_invariant (cfg : fsm_cfg_t) (mem : fsm_t) (ops : List ApiOp)
    (hapi : CfgApi cfg) (hn : 0 < cfg.num_of) (m0 : fsm_t)
    (hc : (fsm_init (some cfg) true mem).2 = some m0) :
    StateInv cfg (runOps cfg ops m0) := by
  have hi : (fsm_init (some cfg) true mem).2 = some (fsm_reset_state mem) := by
    simp [fsm_init, hn]
  rw [hi] at hc
  have hm0 : m0 = fsm_reset_state mem := (Option.some_inj.mp hc).symm
  exact runOps_inv cfg hapi hn ops m0 (by rw [hm0]; exact ⟨hn, hn⟩)

/-- The two-state callback-free configuration trivially satisfies
`CfgApi`. -/
theorem cfgB_api : CfgApi cfgB := by
  intro sc hsc
  simp only [cfgB, List.mem_cons, List.not_mem_nil, or_false] at hsc
  rcases hsc with rfl | rfl <;> exact ⟨Or.inl rfl, Or.inl rfl, Or.inl rfl⟩

/-- Witness for C10 on a concrete machine and call sequence (including an
out-of-range request and a reset). -/
theorem C10_state_index_invariant_witness :
    StateInv cfgB (runOps cfgB
      [ApiOp.gotoO 1, ApiOp.hndlO 0 5, ApiOp.resetO, ApiOp.hndlO 6 9,
       ApiOp.setDataO { u32 := 3 }, ApiOp.gotoO 7, ApiOp.hndlO 10 11]
      (fsm_reset_state memA)) :=
  C10_state_index_invariant cfgB memA
    [ApiOp.gotoO 1, ApiOp.hndlO 0 5, ApiOp.resetO, ApiOp.hndlO 6 9,
     ApiOp.setDataO { u32 := 3 }, ApiOp.gotoO 7, ApiOp.hndlO 10 11]
    cfgB_api (by decide) (fsm_reset_state memA) rfl
